import Mathlib

/-!
Verification development for the trading-dashboard backtest core.

Shallow embedding of `src/backtest.py` (function `run_backtest`) and
`src/metrics.py` (functions `calculate_metrics`, `calculate_trade_metrics`).

Modelling conventions:
* pandas float64 values are modelled as `ℚ` in the backtest engine (only
  field arithmetic occurs there) and as `ℝ` in the period-metrics layer
  (where `sqrt` and real powers occur);
* a float `NaN` produced by pandas reductions over empty data
  (`mean`/`std` of an empty series, `min` of an empty series,
  `std` with `ddof=1` of a singleton) is modelled as `Option.none`,
  and arithmetic on possibly-NaN values propagates `none`;
* `np.inf` (the value of a trade-metric Profit Factor with zero gross
  loss) is modelled by the dedicated constructor `MVal.inf`;
* a pandas `DataFrame` is modelled as a list of rows plus flags recording
  which of the three columns (`close`, `forecast`, `date`) are present;
  the `date` column (a parsed datetime used only for ordering and
  reporting) is modelled by `ℚ`, an order-isomorphic stand-in;
* `df.sort_values('date')` (numpy quicksort, tie order unspecified) is
  modelled by the deterministic `List.insertionSort` on the date key;
* Python exceptions (`ValueError` raised by validation, `KeyError`
  raised by the unconditional `df['date']` access on line 81) are
  modelled with `Except`.
-/

/-- One row of the input table: `close` price, `forecast` signal
(`none` models a float NaN, dropped by `df[df['forecast'].notna()]`),
and the value of the `date` column (meaningful only when the frame has
a date column). -/
structure Row where
  close : ℚ
  forecast : Option ℚ
  date : ℚ
  deriving DecidableEq, Repr

/-- The input DataFrame: rows plus flags for which columns exist
(after the lower-casing of column names on line 24 of backtest.py). -/
structure DFrame where
  hasClose : Bool
  hasForecast : Bool
  hasDate : Bool
  rows : List Row
  deriving DecidableEq, Repr

/-- Python exceptions run_backtest can raise: the two explicit
`ValueError`s (lines 27 and 37 of backtest.py) and the `KeyError`
from `df['date']` on line 81 when the frame has no date column. -/
inductive BtError where
  | missingColumns
  | noValidData
  | keyError
  deriving DecidableEq, Repr

/-- One record of the trades list built on lines 144-151 / 166-173 of
backtest.py. `type` is the `'Long' if trade_type > 0 else 'Short'`
string. -/
structure Trade where
  start_date : ℚ
  end_date : ℚ
  type : String
  pnl : ℚ
  pnl_abs : ℚ
  duration : ℕ
  deriving DecidableEq, Repr

/-- `np.sign` on line 82 of backtest.py: 1, -1 or 0. -/
def sgn (q : ℚ) : Int :=
  if 0 < q then 1 else if q < 0 then -1 else 0

/-- `df['close'].pct_change().fillna(0)` (line 40 of backtest.py):
first entry 0, entry i is close[i]/close[i-1] - 1. -/
def pctChange (closes : List ℚ) : List ℚ :=
  match closes with
  | [] => []
  | _ :: rest => 0 :: List.zipWith (fun prev cur => cur / prev - 1) closes rest

/-- `series.shift(1).fillna(0)` (line 46 of backtest.py). -/
def shift1 (xs : List ℚ) : List ℚ :=
  match xs with
  | [] => []
  | _ :: _ => 0 :: xs.dropLast

/-- `initial_capital * (1 + returns).cumprod()` (lines 53-54 of
backtest.py): entry i is cap * prod_{k ≤ i} (1 + returns[k]). -/
def cumEquity (cap : ℚ) : List ℚ → List ℚ
  | [] => []
  | r :: rs => (cap * (1 + r)) :: cumEquity (cap * (1 + r)) rs

/-- `df.sort_values('date')` (line 31 of backtest.py), modelled by a
deterministic stable sort on the date key. -/
def sortRows (rows : List Row) : List Row :=
  rows.insertionSort (fun a b => a.date ≤ b.date)

/-- Mutable loop state of the trade-identification scan
(lines 84-126 of backtest.py). -/
structure SegState where
  trade_type : Int
  trade_start_idx : ℕ
  start_date : ℚ
  trade_start_equity : ℚ
  deriving DecidableEq, Repr

/-- The scan of lines 128-173 of backtest.py over the remaining indices
(`i in range(first_idx + 1, len(df))`), followed by the final
"close last open trade" block (lines 162-173), which uses the last
equity value `equity_curve[-1]` and last date `dates[-1]`.
Note the loop body has no in-trade guard (the `in_trade` variable of
line 70 is never consulted), so when the state is Flat
(`trade_type = 0`) and a non-zero sign appears, the `current_sign !=
trade_type` branch still fires and appends a trade record. -/
def segLoop (signs : List Int) (equity dates : List ℚ) (n : ℕ) :
    List ℕ → SegState → List Trade
  | [], st =>
      if st.trade_type ≠ 0 then
        [{ start_date := st.start_date,
           end_date := dates.getD (n - 1) 0,
           type := if 0 < st.trade_type then "Long" else "Short",
           pnl := equity.getD (n - 1) 0 / st.trade_start_equity - 1,
           pnl_abs := equity.getD (n - 1) 0 - st.trade_start_equity,
           duration := n - st.trade_start_idx }]
      else []
  | i :: rest, st =>
      let current_sign := signs.getD i 0
      if current_sign ≠ st.trade_type then
        let exit_equity := equity.getD i 0
        let t : Trade :=
          { start_date := st.start_date,
            end_date := dates.getD i 0,
            type := if 0 < st.trade_type then "Long" else "Short",
            pnl := exit_equity / st.trade_start_equity - 1,
            pnl_abs := exit_equity - st.trade_start_equity,
            duration := i - st.trade_start_idx }
        if current_sign ≠ 0 then
          t :: segLoop signs equity dates n rest
            { trade_type := current_sign, trade_start_idx := i,
              start_date := dates.getD i 0, trade_start_equity := exit_equity }
        else
          t :: segLoop signs equity dates n rest { st with trade_type := 0 }
      else
        segLoop signs equity dates n rest st

/-- Trade identification, lines 84-173 of backtest.py.
`first_idx = np.argmax(signs != 0)` yields 0 when no sign is non-zero,
and the `signs[first_idx] == 0` test (line 90) then skips the scan. -/
def segmentTrades (signs : List Int) (equity dates : List ℚ) (cap : ℚ)
    (n : ℕ) : List Trade :=
  let first_idx := (signs.findIdx? (fun s => s ≠ 0)).getD 0
  if signs.getD first_idx 0 = 0 then []
  else
    segLoop signs equity dates n (List.range' (first_idx + 1) (n - (first_idx + 1)))
      { trade_type := signs.getD first_idx 0,
        trade_start_idx := first_idx,
        start_date := dates.getD first_idx 0,
        trade_start_equity :=
          if first_idx = 0 then cap else equity.getD (first_idx - 1) 0 }

/-- The derived columns of the DataFrame returned by run_backtest,
plus the trades table. -/
structure BtOutput where
  close : List ℚ
  forecast : List ℚ
  date : List ℚ
  asset_return : List ℚ
  position : List ℚ
  shifted_position : List ℚ
  strategy_return : List ℚ
  asset_equity : List ℚ
  strategy_equity : List ℚ
  trades : List Trade
  deriving DecidableEq, Repr

/-- All column computations of run_backtest (lines 40-54 and 80-82 of
backtest.py) on the retained rows (post sort, post forecast filter),
plus the trade scan. All retained rows have a defined forecast, so the
`getD 0` extraction is exact. -/
def mkOutput (rows : List Row) (cap lev : ℚ) : BtOutput :=
  let closes := rows.map (fun r => r.close)
  let fcs := rows.map (fun r => r.forecast.getD 0)
  let asset_return := pctChange closes
  let position := fcs.map (fun f => f / 10 * lev)
  let shifted_position := shift1 position
  let strategy_return := List.zipWith (fun a b => a * b) asset_return shifted_position
  let strategy_equity := cumEquity cap strategy_return
  let dates := rows.map (fun r => r.date)
  let signs := fcs.map sgn
  { close := closes,
    forecast := fcs,
    date := dates,
    asset_return := asset_return,
    position := position,
    shifted_position := shifted_position,
    strategy_return := strategy_return,
    asset_equity := cumEquity cap asset_return,
    strategy_equity := strategy_equity,
    trades := segmentTrades signs strategy_equity dates cap rows.length }

/-- `run_backtest` (lines 18-177 of backtest.py).
Validation order follows the source: missing-column check (line 26),
sort by date when present (lines 30-31), forecast-NaN filter (line 34),
empty check (line 36). The unconditional `dates = df['date'].values`
on line 81 raises `KeyError` when the frame has no date column; every
computation before that line is total, so the error is surfaced here. -/
def run_backtest (df : DFrame) (initial_capital leverage : ℚ) :
    Except BtError BtOutput :=
  if ¬ (df.hasClose ∧ df.hasForecast) then .error .missingColumns
  else
    let sorted := if df.hasDate then sortRows df.rows else df.rows
    let kept := sorted.filter (fun r => r.forecast.isSome)
    if kept = [] then .error .noValidData
    else if df.hasDate then .ok (mkOutput kept initial_capital leverage)
    else .error .keyError

/-- Projection: the strategy_return column of a successful run
(empty list when the run raises). -/
def strategyReturnsOf (df : DFrame) (cap lev : ℚ) : List ℚ :=
  match run_backtest df cap lev with
  | .ok o => o.strategy_return
  | .error _ => []

/-- Projection: the shifted_position column of a successful run. -/
def shiftedPositionsOf (df : DFrame) (cap lev : ℚ) : List ℚ :=
  match run_backtest df cap lev with
  | .ok o => o.shifted_position
  | .error _ => []

/-- Projection: the position column of a successful run. -/
def positionsOf (df : DFrame) (cap lev : ℚ) : List ℚ :=
  match run_backtest df cap lev with
  | .ok o => o.position
  | .error _ => []

/-- Projection: the asset_return column of a successful run. -/
def assetReturnsOf (df : DFrame) (cap lev : ℚ) : List ℚ :=
  match run_backtest df cap lev with
  | .ok o => o.asset_return
  | .error _ => []

/-- Projection: the close column of a successful run. -/
def closesOf (df : DFrame) (cap lev : ℚ) : List ℚ :=
  match run_backtest df cap lev with
  | .ok o => o.close
  | .error _ => []

/-- Projection: the strategy_equity column of a successful run. -/
def strategyEquityOf (df : DFrame) (cap lev : ℚ) : List ℚ :=
  match run_backtest df cap lev with
  | .ok o => o.strategy_equity
  | .error _ => []

/-- Projection: the trades list of a successful run. -/
def tradesOf (df : DFrame) (cap lev : ℚ) : List Trade :=
  match run_backtest df cap lev with
  | .ok o => o.trades
  | .error _ => []

/-- Forecast values of a row list (defined forecasts extracted,
NaN as 0, matching the post-filter extraction of mkOutput). -/
def forecastsOf (rows : List Row) : List ℚ :=
  rows.map (fun r => r.forecast.getD 0)

/-- `np.sign(df['forecast'].values)` over a row list. -/
def signsOf (rows : List Row) : List Int :=
  (forecastsOf rows).map sgn

/-- `np.argmax(signs != 0)` over a row list: the first index whose
forecast sign is non-zero, 0 when there is none. -/
def firstInvestedIdx (rows : List Row) : ℕ :=
  ((signsOf rows).findIdx? (fun s => s ≠ 0)).getD 0

/-!
Embedding of `src/metrics.py`. Period metrics run over `ℝ`; pandas
reductions that yield NaN on degenerate input are modelled with
`Option ℝ` (`none` = NaN), and NaN propagation through arithmetic is
modelled by the `o*` helpers below.
-/

noncomputable section

/-- NaN-propagating multiplication by a scalar. -/
def omul (a : Option ℝ) (b : ℝ) : Option ℝ := a.map (fun x => x * b)

/-- NaN-propagating subtraction of a scalar. -/
def osub (a : Option ℝ) (b : ℝ) : Option ℝ := a.map (fun x => x - b)

/-- NaN-propagating division. The guards in metrics.py ensure the
divisor is never the float 0 here, so the IEEE `x/0 = inf` case is
unreachable and need not be distinguished. -/
def odivOpt (a b : Option ℝ) : Option ℝ :=
  match a, b with
  | some x, some y => some (x / y)
  | _, _ => none

/-- `series.mean()`: NaN on an empty series. -/
def nmean (xs : List ℝ) : Option ℝ :=
  if xs = [] then none else some (xs.sum / (xs.length : ℝ))

/-- `series.std()` (pandas default `ddof=1`): NaN when fewer than two
observations, else the square root of the sum of squared deviations
from the mean divided by n - 1. -/
def nstd (xs : List ℝ) : Option ℝ :=
  if xs.length < 2 then none
  else some (Real.sqrt
    (((xs.map (fun x => (x - xs.sum / (xs.length : ℝ)) ^ 2)).sum) /
      ((xs.length : ℝ) - 1)))

/-- The hard-coded annualization factor of metrics.py line 26. -/
def ANNUAL_FACTOR : ℝ := 756

/-- `mean_return = returns.mean() * ANNUAL_FACTOR` (line 32). -/
def mean_return_of (returns : List ℝ) : Option ℝ :=
  omul (nmean returns) ANNUAL_FACTOR

/-- `volatility = returns.std() * np.sqrt(ANNUAL_FACTOR)` (line 33). -/
def volatility_of (returns : List ℝ) : Option ℝ :=
  omul (nstd returns) (Real.sqrt ANNUAL_FACTOR)

/-- `downside_returns = returns[returns < 0]` (line 38). -/
def downside_of (returns : List ℝ) : List ℝ :=
  returns.filter (fun r => decide (r < 0))

/-- `downside_std = downside_returns.std() * np.sqrt(ANNUAL_FACTOR)`
(line 39). -/
def downside_std_of (returns : List ℝ) : Option ℝ :=
  omul (nstd (downside_of returns)) (Real.sqrt ANNUAL_FACTOR)

/-- `cagr` (lines 28-30): `(1 + total_return) ** (1 / n_years) - 1` when
`n_years > 0`, else 0, with `n_years = len(returns) / ANNUAL_FACTOR`.
The real power is `Real.rpow`; numpy returns NaN for a negative base
with fractional exponent where `rpow` assigns a junk real — no claim
depends on that case. -/
noncomputable def cagr_of (returns : List ℝ) : ℝ :=
  let total_return := (returns.map (fun r => 1 + r)).prod - 1
  let n_years := (returns.length : ℝ) / ANNUAL_FACTOR
  if 0 < n_years then (1 + total_return) ^ (1 / n_years) - 1 else 0

/-- `(1 + returns).cumprod()` (line 43), shared recursion with the
equity curves of the engine. -/
def cumProdR (acc : ℝ) : List ℝ → List ℝ
  | [] => []
  | r :: rs => (acc * (1 + r)) :: cumProdR (acc * (1 + r)) rs

/-- `series.cummax()` (line 44). -/
def cummaxAux (m : ℝ) : List ℝ → List ℝ
  | [] => []
  | x :: xs => (max m x) :: cummaxAux (max m x) xs

/-- `series.cummax()` (line 44), first entry the first value. -/
def cummax : List ℝ → List ℝ
  | [] => []
  | x :: xs => x :: cummaxAux x xs

/-- `drawdown = (cum_returns - peak) / peak` (lines 43-45). -/
def drawdown_of (returns : List ℝ) : List ℝ :=
  let cum := cumProdR 1 returns
  List.zipWith (fun c p => (c - p) / p) cum (cummax cum)

/-- `series.min()`: NaN on an empty series. -/
def listMin : List ℝ → Option ℝ
  | [] => none
  | x :: xs => some (xs.foldl min x)

/-- `max_drawdown = drawdown.min()` (line 46). -/
def max_drawdown_of (returns : List ℝ) : Option ℝ :=
  listMin (drawdown_of returns)

/-- `returns.quantile(0.05)` (line 53): pandas default linear
interpolation between the two order statistics around position
`0.05 * (n - 1)`; NaN on empty input. -/
noncomputable def quantile05 (xs : List ℝ) : Option ℝ :=
  match xs with
  | [] => none
  | _ :: _ =>
    let s := xs.insertionSort (fun a b => a ≤ b)
    let h : ℝ := (5 / 100 : ℝ) * ((xs.length : ℝ) - 1)
    let k : ℕ := Nat.floor h
    some (s.getD k 0 + (h - (k : ℝ)) * (s.getD (k + 1) (s.getD k 0) - s.getD k 0))

/-- The mapping returned by `calculate_metrics` (lines 55-65). -/
structure PeriodMetrics where
  total_return : ℝ
  cagr : ℝ
  volatility : Option ℝ
  sharpe : Option ℝ
  sortino : Option ℝ
  calmar : Option ℝ
  max_drawdown : Option ℝ
  avg_drawdown : Option ℝ
  cvar95 : Option ℝ

/-- `calculate_metrics` (metrics.py lines 5-65). Each `if c != 0`
guard of the source is mirrored with the same polarity; note a NaN
(`none`) aggregate satisfies `!= 0` in Python and flows into the
division, which the `o*` helpers propagate as `none`. -/
noncomputable def calculate_metrics (returns : List ℝ)
    (risk_free_rate : ℝ) : PeriodMetrics :=
  let total_return := (returns.map (fun r => 1 + r)).prod - 1
  let volatility := volatility_of returns
  let downside_std := downside_std_of returns
  let max_drawdown := max_drawdown_of returns
  { total_return := total_return,
    cagr := cagr_of returns,
    volatility := volatility,
    sharpe :=
      if volatility ≠ some 0 then
        odivOpt (osub (mean_return_of returns) risk_free_rate) volatility
      else some 0,
    sortino :=
      if downside_std ≠ some 0 then
        odivOpt (osub (mean_return_of returns) risk_free_rate) downside_std
      else some 0,
    calmar :=
      if max_drawdown ≠ some 0 then
        odivOpt (some (cagr_of returns)) (max_drawdown.map (fun m => |m|))
      else some 0,
    max_drawdown := max_drawdown,
    avg_drawdown := nmean ((drawdown_of returns).filter (fun d => decide (d < 0))),
    cvar95 := quantile05 returns }

end

/-- Value domain of the trade-metrics mapping: a finite float or the
`np.inf` produced for a zero gross loss (line 94 of metrics.py). -/
inductive MVal where
  | fin (q : ℚ)
  | inf
  deriving DecidableEq, Repr

/-- `gross_profit = wins['pnl_abs'].sum()` where `wins` holds the
trades with `pnl > 0` (lines 80 and 91 of metrics.py). -/
def gross_profit (ts : List Trade) : ℚ :=
  ((ts.filter (fun t => 0 < t.pnl)).map (fun t => t.pnl_abs)).sum

/-- `gross_loss = abs(losses['pnl_abs'].sum())` where `losses` holds
the trades with `pnl < 0` (lines 81 and 92 of metrics.py): the filter
tests the sign of `pnl`, the sum ranges over `pnl_abs`. -/
def gross_loss (ts : List Trade) : ℚ :=
  |((ts.filter (fun t => t.pnl < 0)).map (fun t => t.pnl_abs)).sum|

/-- `profit_factor = gross_profit / gross_loss if gross_loss != 0 else
np.inf` (line 94 of metrics.py). -/
def profit_factor (ts : List Trade) : MVal :=
  if gross_loss ts ≠ 0 then .fin (gross_profit ts / gross_loss ts) else .inf

/-- `series.mean()` on input the callers guard to be non-empty. -/
def qmean (xs : List ℚ) : ℚ := xs.sum / (xs.length : ℚ)

/-- `calculate_trade_metrics` (metrics.py lines 67-104), as the ordered
key-value mapping the function returns: five zero-valued keys for an
empty trades table (lines 71-78), otherwise the seven keys of lines
96-104. -/
def calculate_trade_metrics (ts : List Trade) : List (String × MVal) :=
  if ts = [] then
    [("Total Trades", .fin 0), ("Win Rate", .fin 0), ("Avg Trade", .fin 0),
     ("Profit Factor", .fin 0), ("Expectancy", .fin 0)]
  else
    let wins := ts.filter (fun t => 0 < t.pnl)
    let losses := ts.filter (fun t => t.pnl < 0)
    [("Total Trades", .fin (ts.length : ℚ)),
     ("Win Rate", .fin ((wins.length : ℚ) / (ts.length : ℚ))),
     ("Avg Trade", .fin (qmean (ts.map (fun t => t.pnl)))),
     ("Avg Win", .fin (if wins ≠ [] then qmean (wins.map (fun t => t.pnl)) else 0)),
     ("Avg Loss", .fin (if losses ≠ [] then qmean (losses.map (fun t => t.pnl)) else 0)),
     ("Avg Duration", .fin (qmean (ts.map (fun t => (t.duration : ℚ))))),
     ("Profit Factor", profit_factor ts)]

/-! Concrete inputs used by the claim theorems and witnesses. -/

/-- Replace the forecast value at position `i` (a no-op when `i` is out
of range), leaving close and date untouched: the "two runs identical
except for the value of forecast[i]" perturbation. -/
def perturbRow (rows : List Row) (i : ℕ) (b : ℚ) : List Row :=
  rows.set i { rows.getD i ⟨0, none, 0⟩ with forecast := some b }

/-- The spec §8 concrete scenario, with a date column 0..4 (run_backtest
reads the date column unconditionally). -/
def dfScenario : DFrame :=
  ⟨true, true, true,
    [⟨100, some 10, 0⟩, ⟨101, some 10, 1⟩, ⟨102, some 10, 2⟩,
     ⟨99, some (-10), 3⟩, ⟨100, some (-10), 4⟩]⟩

/-- Directional, Flat, Directional signal: sign pattern 1, 0, 1. -/
def dfFlatGap : DFrame :=
  ⟨true, true, true,
    [⟨100, some 10, 0⟩, ⟨110, some 0, 1⟩, ⟨121, some 10, 2⟩]⟩

/-- A frame with close and forecast columns but no date column. -/
def dfNoDate : DFrame :=
  ⟨true, true, false, [⟨100, some 10, 0⟩, ⟨101, some 10, 0⟩]⟩

/-- Another dateless frame with valid close/forecast data. -/
def dfNoDateValid : DFrame :=
  ⟨true, true, false, [⟨50, some 5, 0⟩, ⟨60, some (-5), 0⟩]⟩

/-- A minimal fully valid frame (date column present). -/
def dfSimple : DFrame := ⟨true, true, true, [⟨100, some 1, 0⟩]⟩

/-- Two sorted rows with defined forecasts. -/
def rowsPair : List Row := [⟨100, some 10, 0⟩, ⟨105, some 20, 1⟩]

/-- Two rows whose signs are 1, -1: invested from index 0, no Flat gap. -/
def rowsNoGap : List Row := [⟨100, some 10, 0⟩, ⟨110, some (-10), 1⟩]

/-- A three-row frame whose middle row has an undefined (NaN) forecast. -/
def mkMidGapFrame (c0 c1 c2 f0 f2 : ℚ) : DFrame :=
  ⟨true, true, true, [⟨c0, some f0, 0⟩, ⟨c1, none, 1⟩, ⟨c2, some f2, 2⟩]⟩

/-- A trade with negative fractional pnl but positive absolute pnl
(reachable when a trade's entry equity is negative). -/
def tradeLossPosAbs : Trade := ⟨0, 1, "Short", -(1/2), 50, 1⟩

/-- A single winning trade. -/
def tradeWinOnly : Trade := ⟨0, 1, "Long", 1/2, 5, 1⟩

/-- A sample trade for key-set witnesses. -/
def tradeSample : Trade := ⟨0, 1, "Long", 1/10, 10, 1⟩

/-! Index and length toolbox for the engine's column pipeline. -/

theorem length_pctChange (l : List ℚ) : (pctChange l).length = l.length := by
  cases l with
  | nil => rfl
  | cons c rest => simp [pctChange]

theorem length_shift1 (l : List ℚ) : (shift1 l).length = l.length := by
  cases l with
  | nil => rfl
  | cons x rest => simp [shift1]

theorem length_cumEquity (cap : ℚ) (l : List ℚ) :
    (cumEquity cap l).length = l.length := by
  induction l generalizing cap with
  | nil => rfl
  | cons r rs ih => simp [cumEquity, ih]

theorem getD_eq_zero_of_le (l : List ℚ) (n : ℕ) (h : l.length ≤ n) :
    l.getD n 0 = 0 := by
  induction l generalizing n with
  | nil => simp
  | cons x xs ih =>
    cases n with
    | zero => simp at h
    | succ m => simpa using ih m (by simpa using h)

theorem getD_map (f : ℚ → ℚ) (l : List ℚ) (n : ℕ) (h : n < l.length) :
    (l.map f).getD n 0 = f (l.getD n 0) := by
  induction l generalizing n with
  | nil => simp at h
  | cons x xs ih =>
    cases n with
    | zero => rfl
    | succ m => simpa using ih m (by simpa using h)

theorem getD_map_sgn (l : List ℚ) (n : ℕ) (h : n < l.length) :
    (l.map sgn).getD n 0 = sgn (l.getD n 0) := by
  induction l generalizing n with
  | nil => simp at h
  | cons x xs ih =>
    cases n with
    | zero => rfl
    | succ m => simpa using ih m (by simpa using h)

theorem getD_set_ne (l : List ℚ) (i k : ℕ) (v : ℚ) (h : k ≠ i) :
    (l.set i v).getD k 0 = l.getD k 0 := by
  induction l generalizing i k with
  | nil => simp
  | cons x xs ih =>
    cases i with
    | zero =>
      cases k with
      | zero => exact absurd rfl h
      | succ m => simp
    | succ j =>
      cases k with
      | zero => simp
      | succ m => simpa using ih j m (fun hc => h (by simp [hc]))

theorem set_getD_self (l : List Row) (i : ℕ) (d : Row) (h : i < l.length) :
    l.set i (l.getD i d) = l := by
  induction l generalizing i with
  | nil => simp at h
  | cons x xs ih =>
    cases i with
    | zero => simp
    | succ m => simpa using ih m (by simpa using h)

theorem getD_dropLast (l : List ℚ) (j : ℕ) (h : j < l.length - 1) :
    l.dropLast.getD j 0 = l.getD j 0 := by
  induction l generalizing j with
  | nil => simp at h
  | cons x xs ih =>
    cases xs with
    | nil => simp at h
    | cons y t =>
      cases j with
      | zero => rfl
      | succ m =>
        have hm : m < (y :: t).length - 1 := by
          simpa using Nat.lt_of_succ_lt_succ (by simpa using h)
        simpa using ih m hm

theorem shift1_getD_zero (x : ℚ) (l : List ℚ) : (shift1 (x :: l)).getD 0 0 = 0 := rfl

theorem shift1_getD_succ (l : List ℚ) (j : ℕ) (h : j + 1 < l.length) :
    (shift1 l).getD (j + 1) 0 = l.getD j 0 := by
  cases l with
  | nil => simp at h
  | cons x xs =>
    show (x :: xs).dropLast.getD j 0 = (x :: xs).getD j 0
    exact getD_dropLast (x :: xs) j (by simpa using h)

theorem getD_zipWith_mul (a b : List ℚ) (n : ℕ) (ha : n < a.length)
    (hb : n < b.length) :
    (List.zipWith (fun x y => x * y) a b).getD n 0 = a.getD n 0 * b.getD n 0 := by
  induction a generalizing b n with
  | nil => simp at ha
  | cons x xs ih =>
    cases b with
    | nil => simp at hb
    | cons y ys =>
      cases n with
      | zero => rfl
      | succ m =>
        simpa using ih ys m (by simpa using ha) (by simpa using hb)

theorem cumEquity_getD_zero (cap r : ℚ) (rs : List ℚ) :
    (cumEquity cap (r :: rs)).getD 0 0 = cap * (1 + r) := rfl

theorem cumEquity_getD_succ (cap : ℚ) (rs : List ℚ) (k : ℕ)
    (h : k + 1 < rs.length) :
    (cumEquity cap rs).getD (k + 1) 0 =
      (cumEquity cap rs).getD k 0 * (1 + rs.getD (k + 1) 0) := by
  induction rs generalizing cap k with
  | nil => simp at h
  | cons r rs' ih =>
    cases rs' with
    | nil => simp at h
    | cons r' rs'' =>
      cases k with
      | zero => simp [cumEquity]
      | succ m =>
        have hm : m + 1 < (r' :: rs'').length := by simpa using h
        simpa [cumEquity] using ih (cap * (1 + r)) m hm

/-! Facts about `np.argmax(signs != 0)` as modelled by `findIdx?`. -/

theorem findIdx?_of_getD_ne (signs : List Int)
    (h : signs.getD ((signs.findIdx? (fun s => s ≠ 0)).getD 0) 0 ≠ 0) :
    signs.findIdx? (fun s => s ≠ 0) =
      some ((signs.findIdx? (fun s => s ≠ 0)).getD 0) := by
  cases heq : signs.findIdx? (fun s => s ≠ 0) with
  | some j => rfl
  | none =>
    exfalso
    rw [heq] at h
    simp only [Option.getD_none] at h
    cases signs with
    | nil => simp at h
    | cons a l =>
      have := List.findIdx?_eq_none_iff.mp heq a (by simp)
      simp at this
      simp [this] at h

theorem signs_before_firstIdx (signs : List Int) (j k : ℕ)
    (hfi : signs.findIdx? (fun s => s ≠ 0) = some j) (hk : k < j) :
    signs.getD k 0 = 0 := by
  obtain ⟨hj, _, hall⟩ := List.findIdx?_eq_some_iff_getElem.mp hfi
  have hkl : k < signs.length := Nat.lt_trans hk hj
  have := hall k hk
  simp only [ne_eq, decide_not, Bool.not_eq_true', decide_eq_false_iff_not,
    Decidable.not_not] at this
  rw [List.getD_eq_getElem?_getD, List.getElem?_eq_getElem hkl]
  simpa using this

theorem sgn_eq_zero_iff (q : ℚ) : sgn q = 0 ↔ q = 0 := by
  unfold sgn
  rcases lt_trichotomy q 0 with hlt | heq | hgt
  · simp [not_lt.mpr (le_of_lt hlt), hlt, ne_of_lt hlt]
  · simp [heq]
  · simp [hgt, (ne_of_gt hgt)]

/-! Reduction of run_backtest to the column pipeline. -/

theorem run_backtest_ok (df : DFrame) (cap lev : ℚ)
    (hc : df.hasClose = true) (hf : df.hasForecast = true)
    (hd : df.hasDate = true)
    (hs : df.rows.Sorted (fun a b => a.date ≤ b.date))
    (hne : df.rows.filter (fun r => r.forecast.isSome) ≠ []) :
    run_backtest df cap lev =
      .ok (mkOutput (df.rows.filter (fun r => r.forecast.isSome)) cap lev) := by
  simp only [run_backtest, hc, hf, hd, if_true]
  rw [show sortRows df.rows = df.rows from List.Sorted.insertionSort_eq hs]
  simp [hne]

theorem run_backtest_ok_all (df : DFrame) (cap lev : ℚ)
    (hc : df.hasClose = true) (hf : df.hasForecast = true)
    (hd : df.hasDate = true)
    (hs : df.rows.Sorted (fun a b => a.date ≤ b.date))
    (hall : ∀ r ∈ df.rows, r.forecast.isSome = true)
    (hne : df.rows ≠ []) :
    run_backtest df cap lev = .ok (mkOutput df.rows cap lev) := by
  have hfil : df.rows.filter (fun r => r.forecast.isSome) = df.rows :=
    List.filter_eq_self.mpr hall
  have := run_backtest_ok df cap lev hc hf hd hs (by simpa [hfil] using hne)
  rwa [hfil] at this

/-- C1: the claim says the Trade Segmenter emits no trade record at a
Flat-to-Directional transition. The code disagrees: on signs 1, 0, 1 it
emits three records, the middle one a phantom trade appended when the
sign re-appears after the Flat gap (typed "Short" because the stored
trade_type is 0, spanning from the stale start_date 0 to the re-entry
date 2 and double-counting the first trade's pnl). -/
theorem c1_flat_gap_phantom_trade :
    tradesOf dfFlatGap 1000 1 =
      [⟨0, 1, "Long", 1/10, 100, 1⟩,
       ⟨0, 2, "Short", 1/10, 100, 2⟩,
       ⟨2, 2, "Long", 0, 0, 1⟩] := by
  norm_num [tradesOf, run_backtest, dfFlatGap, mkOutput, sortRows,
    List.insertionSort, List.orderedInsert, pctChange, shift1, cumEquity,
    segmentTrades, segLoop, sgn, List.findIdx?, List.range', List.filter]
  rw [if_neg (List.cons_ne_nil _ _)]

/-- C3 counterexample: on the spec §8 scenario the code's
asset_return[1] is 101/100 - 1 = 0.01 exactly, while the claim states
.00990; the distance 0.0001 exceeds any 5-decimal rounding tolerance. -/
theorem c3_scenario_asset_return_one_differs :
    (assetReturnsOf dfScenario 1000 1).getD 1 0 = 1/100 ∧
    (1/200000 : ℚ) < |(1/100 : ℚ) - 99/10000| := by
  constructor
  · norm_num [assetReturnsOf, run_backtest, dfScenario, mkOutput, sortRows,
      List.insertionSort, List.orderedInsert, pctChange, shift1,
      List.filter]
    rw [if_neg (List.cons_ne_nil _ _)]
    simp
  · norm_num [abs_of_pos]

/-- C3 amended: on the scenario (with a date column 0..4, which
run_backtest requires), asset_return = [0, .01, 1/101, -1/34, 1/99],
shifted_position = [0,1,1,1,-1], strategy_return =
[0, .01, 1/101, -1/34, -1/99], and exactly two trades: a Long opened at
index 0 and closed at the sign flip at index 3, and a Short opened at
index 3 and closed at index 4 using the final equity. -/
theorem c3_scenario_outputs :
    assetReturnsOf dfScenario 1000 1 = [0, 1/100, 1/101, -(1/34), 1/99] ∧
    shiftedPositionsOf dfScenario 1000 1 = [0, 1, 1, 1, -1] ∧
    strategyReturnsOf dfScenario 1000 1 = [0, 1/100, 1/101, -(1/34), -(1/99)] ∧
    tradesOf dfScenario 1000 1 =
      [⟨0, 3, "Long", -(1/100), -10, 3⟩, ⟨3, 4, "Short", -(1/99), -10, 2⟩] := by
  refine ⟨?_, ?_, ?_, ?_⟩ <;>
  · norm_num [assetReturnsOf, shiftedPositionsOf, strategyReturnsOf, tradesOf,
      run_backtest, dfScenario, mkOutput, sortRows,
      List.insertionSort, List.orderedInsert, pctChange, shift1, cumEquity,
      segmentTrades, segLoop, sgn, List.findIdx?, List.range', List.filter]
    rw [if_neg (List.cons_ne_nil _ _)]

/-- C4: a frame with close and forecast columns, defined forecasts, but
no date column makes run_backtest raise the KeyError of the
unconditional `df['date']` access (line 81 of backtest.py), instead of
succeeding with a synthetic period index as the claim states. -/
theorem c4_missing_date_column_raises :
    run_backtest dfNoDate 10000 1 = .error .keyError := rfl

/-- C8 counterexample: a frame that satisfies the claim's validity
conditions (close and forecast present, a retained row after the
forecast filter) but has no date column does not return normally: it
raises the non-validation KeyError of line 81. -/
theorem c8_valid_dateless_input_raises :
    run_backtest dfNoDateValid 10000 1 = .error .keyError ∧
    dfNoDateValid.hasClose = true ∧ dfNoDateValid.hasForecast = true ∧
    (dfNoDateValid.rows.filter (fun r => r.forecast.isSome)).length = 2 := by
  refine ⟨rfl, rfl, rfl, rfl⟩

/-- C7 counterexample: a single trade with pnl < 0 but pnl_abs > 0. The
claim's gross loss (the sum of the negative pnl_abs values) is 0, yet
the code's Profit Factor is the finite value 0, not +infinity: the code
filters losses by the sign of pnl (line 81 of metrics.py) and sums
their pnl_abs, which here is the positive 50. -/
theorem c7_gross_loss_reading_fails :
    ([tradeLossPosAbs]).length = 1 ∧
    (([tradeLossPosAbs].filter (fun t => t.pnl_abs < 0)).map
      (fun t => t.pnl_abs)).sum = 0 ∧
    profit_factor [tradeLossPosAbs] = .fin 0 := by
  refine ⟨rfl, by norm_num [tradeLossPosAbs], ?_⟩
  norm_num [profit_factor, gross_loss, gross_profit, tradeLossPosAbs,
    List.filter]

/-- C9: trade_metrics on an empty trade list returns exactly the five
keys Total Trades, Win Rate, Avg Trade, Profit Factor, Expectancy, all
0; on a non-empty list it returns exactly the seven keys Total Trades,
Win Rate, Avg Trade, Avg Win, Avg Loss, Avg Duration, Profit Factor
(Expectancy absent). -/
theorem c9_trade_metrics_key_asymmetry (ts : List Trade) :
    (ts = [] → calculate_trade_metrics ts =
      [("Total Trades", .fin 0), ("Win Rate", .fin 0), ("Avg Trade", .fin 0),
       ("Profit Factor", .fin 0), ("Expectancy", .fin 0)]) ∧
    (ts ≠ [] → (calculate_trade_metrics ts).map Prod.fst =
      ["Total Trades", "Win Rate", "Avg Trade", "Avg Win", "Avg Loss",
       "Avg Duration", "Profit Factor"]) := by
  constructor
  · intro h
    simp [calculate_trade_metrics, h]
  · intro h
    simp [calculate_trade_metrics, h]

/-- C9 witness: both branches at concrete inputs. -/
theorem c9_trade_metrics_key_asymmetry_witness :
    calculate_trade_metrics [] =
      [("Total Trades", .fin 0), ("Win Rate", .fin 0), ("Avg Trade", .fin 0),
       ("Profit Factor", .fin 0), ("Expectancy", .fin 0)] ∧
    (calculate_trade_metrics [tradeSample]).map Prod.fst =
      ["Total Trades", "Win Rate", "Avg Trade", "Avg Win", "Avg Loss",
       "Avg Duration", "Profit Factor"] :=
  ⟨(c9_trade_metrics_key_asymmetry []).1 rfl,
   (c9_trade_metrics_key_asymmetry [tradeSample]).2 (List.cons_ne_nil _ _)⟩

/-- C7 (amended: with gross loss as the code computes it, the absolute
value of the sum of pnl_abs over trades with pnl < 0): the degenerate
conditions take silent fallback values — Sharpe 0 at zero volatility,
Sortino 0 at zero downside deviation, Calmar 0 at zero max drawdown,
CAGR 0 at years ≤ 0 — and Profit Factor of a non-empty trade list with
zero gross loss is exactly +infinity. -/
theorem c7_degenerate_fallbacks :
    (∀ (returns : List ℝ) (rfr : ℝ),
      (volatility_of returns = some 0 →
        (calculate_metrics returns rfr).sharpe = some 0) ∧
      (downside_std_of returns = some 0 →
        (calculate_metrics returns rfr).sortino = some 0) ∧
      (max_drawdown_of returns = some 0 →
        (calculate_metrics returns rfr).calmar = some 0) ∧
      ((returns.length : ℝ) / ANNUAL_FACTOR ≤ 0 →
        (calculate_metrics returns rfr).cagr = 0)) ∧
    (∀ ts : List Trade, ts ≠ [] → gross_loss ts = 0 →
      profit_factor ts = .inf) := by
  constructor
  · intro returns rfr
    refine ⟨?_, ?_, ?_, ?_⟩
    · intro h
      simp [calculate_metrics, h]
    · intro h
      simp [calculate_metrics, h]
    · intro h
      simp [calculate_metrics, h]
    · intro h
      have hn : ¬ (0 < (returns.length : ℝ) / ANNUAL_FACTOR) := not_lt.mpr h
      simp [calculate_metrics, cagr_of, hn]
  · intro ts hne hgl
    simp [profit_factor, hgl]

/-- C5: the code annualizes with the hard-coded constant 756 regardless
of any caller-supplied factor: on returns [1.0] its CAGR is
2^756 - 1 (exponent 756 = 1 / n_years with n_years = 1/756), which is
not the 2^252 - 1 a caller-supplied factor of 252 would give. -/
theorem c5_annualization_is_hardcoded_756 :
    (calculate_metrics [(1 : ℝ)] 0).cagr = (2:ℝ) ^ (756:ℝ) - 1 ∧
    (2:ℝ) ^ (756:ℝ) - 1 ≠ (2:ℝ) ^ (252:ℝ) - 1 := by
  constructor
  · norm_num [calculate_metrics, cagr_of, ANNUAL_FACTOR]
  · have h2 : (2:ℝ) ^ (252:ℝ) < 2 ^ (756:ℝ) := by
      rw [Real.rpow_lt_rpow_left_iff (by norm_num : (1:ℝ) < 2)]
      norm_num
    intro h
    have heq : (2:ℝ) ^ (756:ℝ) = 2 ^ (252:ℝ) := by linarith
    exact absurd heq (ne_of_gt h2)

/-- C7 witness: each fallback at a concrete input — constant returns
(zero volatility, zero max drawdown), constant negative returns (zero
downside deviation), an empty series (zero years), and a single winning
trade (zero gross loss). -/
theorem c7_degenerate_fallbacks_witness :
    (calculate_metrics [(1:ℝ)/2, 1/2] 0).sharpe = some 0 ∧
    (calculate_metrics [-(1:ℝ)/2, -(1:ℝ)/2] 0).sortino = some 0 ∧
    (calculate_metrics [(1:ℝ)/2, 1/2] 0).calmar = some 0 ∧
    (calculate_metrics ([] : List ℝ) 0).cagr = 0 ∧
    profit_factor [tradeWinOnly] = .inf := by
  refine ⟨(c7_degenerate_fallbacks.1 [(1:ℝ)/2, 1/2] 0).1 ?_,
          (c7_degenerate_fallbacks.1 [-(1:ℝ)/2, -(1:ℝ)/2] 0).2.1 ?_,
          (c7_degenerate_fallbacks.1 [(1:ℝ)/2, 1/2] 0).2.2.1 ?_,
          (c7_degenerate_fallbacks.1 [] 0).2.2.2 ?_,
          c7_degenerate_fallbacks.2 [tradeWinOnly] (List.cons_ne_nil _ _) ?_⟩
  · norm_num [volatility_of, nstd, omul]
  · norm_num [downside_std_of, downside_of, nstd, omul, List.filter]
  · norm_num [max_drawdown_of, drawdown_of, cumProdR, cummax, cummaxAux,
      listMin, List.zipWith, max_def]
  · norm_num [ANNUAL_FACTOR]
  · norm_num [gross_loss, tradeWinOnly, List.filter]

/-- C8 (amended: restricted to inputs that have a date column, since a
dateless input raises KeyError at line 81 regardless of validity):
run_backtest returns normally iff the close and forecast columns are
present and some row has a defined forecast; every error it raises is
one of the two validation errors. -/
theorem c8_validation_error_iff (df : DFrame) (cap lev : ℚ)
    (hd : df.hasDate = true) :
    ((∃ out, run_backtest df cap lev = .ok out) ↔
      (df.hasClose = true ∧ df.hasForecast = true ∧
        ∃ r ∈ df.rows, r.forecast.isSome = true)) ∧
    (∀ e, run_backtest df cap lev = .error e →
      e = .missingColumns ∨ e = .noValidData) := by
  have hperm : ∀ r : Row, r ∈ sortRows df.rows ↔ r ∈ df.rows :=
    fun r => (List.perm_insertionSort _ df.rows).mem_iff
  by_cases hcf : df.hasClose = true ∧ df.hasForecast = true
  · obtain ⟨hc, hf⟩ := hcf
    by_cases hkept : (sortRows df.rows).filter (fun r => r.forecast.isSome) = []
    · have hrun : run_backtest df cap lev = .error .noValidData := by
        simp [run_backtest, hc, hf, hd, hkept]
      constructor
      · rw [hrun]
        constructor
        · rintro ⟨out, h⟩
          simp at h
        · rintro ⟨-, -, r, hr, hsome⟩
          have hmem : r ∈ sortRows df.rows := (hperm r).mpr hr
          have := List.filter_eq_nil_iff.mp hkept r hmem
          simp [hsome] at this
      · intro e he
        rw [hrun] at he
        injection he with h
        exact Or.inr h.symm
    · have hrun : run_backtest df cap lev =
          .ok (mkOutput ((sortRows df.rows).filter (fun r => r.forecast.isSome))
            cap lev) := by
        simp [run_backtest, hc, hf, hd, hkept]
      constructor
      · rw [hrun]
        constructor
        · intro _
          refine ⟨hc, hf, ?_⟩
          obtain ⟨r, hr⟩ := List.exists_mem_of_ne_nil _ hkept
          have hmem := List.mem_filter.mp hr
          exact ⟨r, (hperm r).mp hmem.1, hmem.2⟩
        · intro _
          exact ⟨_, rfl⟩
      · intro e he
        rw [hrun] at he
        simp at he
  · have hrun : run_backtest df cap lev = .error .missingColumns := by
      simp only [run_backtest, if_pos hcf]
    constructor
    · rw [hrun]
      constructor
      · rintro ⟨out, h⟩
        simp at h
      · rintro ⟨hc, hf, -⟩
        exact absurd ⟨hc, hf⟩ hcf
    · intro e he
      rw [hrun] at he
      injection he with h
      exact Or.inl h.symm

/-- C8 witness: a valid one-row frame with a date column runs to a
normal result. -/
theorem c8_validation_error_iff_witness :
    ∃ out, run_backtest dfSimple 10000 1 = .ok out :=
  (c8_validation_error_iff dfSimple 10000 1 rfl).1.mpr
    ⟨rfl, rfl, ⟨100, some 1, 0⟩, by simp [dfSimple], rfl⟩

/-- C10: a mid-series row with undefined forecast is silently dropped
(not only leading rows): on rows with forecasts f0, NaN, f2 the run
succeeds, retains only the first and third closes, and computes the
asset return across the gap as close[2]/close[0] - 1. -/
theorem c10_mid_series_nan_dropped (c0 c1 c2 f0 f2 cap lev : ℚ) :
    (∃ out, run_backtest (mkMidGapFrame c0 c1 c2 f0 f2) cap lev = .ok out) ∧
    closesOf (mkMidGapFrame c0 c1 c2 f0 f2) cap lev = [c0, c2] ∧
    assetReturnsOf (mkMidGapFrame c0 c1 c2 f0 f2) cap lev =
      [0, c2 / c0 - 1] := by
  have hs : (mkMidGapFrame c0 c1 c2 f0 f2).rows.Sorted
      (fun a b => a.date ≤ b.date) := by
    simp [mkMidGapFrame, List.sorted_cons]
  have hfil : (mkMidGapFrame c0 c1 c2 f0 f2).rows.filter
      (fun r => r.forecast.isSome) = [⟨c0, some f0, 0⟩, ⟨c2, some f2, 2⟩] := by
    simp [mkMidGapFrame, List.filter]
  have hrun := run_backtest_ok (mkMidGapFrame c0 c1 c2 f0 f2) cap lev
    rfl rfl rfl hs (by rw [hfil]; exact List.cons_ne_nil _ _)
  rw [hfil] at hrun
  refine ⟨⟨_, hrun⟩, ?_, ?_⟩
  · simp [closesOf, hrun, mkOutput]
  · simp [assetReturnsOf, hrun, mkOutput, pctChange]

/-! General forms of the index toolbox used by the no-lookahead and
reconciliation proofs. -/

theorem getD_map_general {α β : Type} (f : α → β) (l : List α) (n : ℕ)
    (d : α) (db : β) (h : n < l.length) :
    (l.map f).getD n db = f (l.getD n d) := by
  induction l generalizing n with
  | nil => simp at h
  | cons x xs ih =>
    cases n with
    | zero => rfl
    | succ m => simpa using ih m (by simpa using h)

theorem set_getD_self_general {α : Type} (l : List α) (i : ℕ) (d : α)
    (h : i < l.length) : l.set i (l.getD i d) = l := by
  induction l generalizing i with
  | nil => simp at h
  | cons x xs ih =>
    cases i with
    | zero => simp
    | succ m => simpa using ih m (by simpa using h)

theorem shift1_getD_zero_of_ne_nil (l : List ℚ) (h : l ≠ []) :
    (shift1 l).getD 0 0 = 0 := by
  cases l with
  | nil => exact absurd rfl h
  | cons x xs => rfl

/-- C2: no-lookahead. For two runs on sorted rows with defined
forecasts that are identical except for the forecast value at position
i, strategy_return agrees at every output index other than i + 1; and
shifted_position[0] = 0 while shifted_position[k] = position[k-1] for
0 < k < n. -/
theorem c2_no_lookahead (rows : List Row) (cap lev b : ℚ) (i : ℕ)
    (hs : rows.Sorted (fun a b' => a.date ≤ b'.date))
    (hall : ∀ r ∈ rows, r.forecast.isSome = true)
    (hne : rows ≠ []) :
    (∀ j, j ≠ i + 1 →
      (strategyReturnsOf ⟨true, true, true, rows⟩ cap lev).getD j 0 =
      (strategyReturnsOf ⟨true, true, true, perturbRow rows i b⟩ cap lev).getD j 0) ∧
    (shiftedPositionsOf ⟨true, true, true, rows⟩ cap lev).getD 0 0 = 0 ∧
    (∀ k, 0 < k → k < rows.length →
      (shiftedPositionsOf ⟨true, true, true, rows⟩ cap lev).getD k 0 =
      (positionsOf ⟨true, true, true, rows⟩ cap lev).getD (k - 1) 0) := by
  have hrun : run_backtest ⟨true, true, true, rows⟩ cap lev =
      .ok (mkOutput rows cap lev) :=
    run_backtest_ok_all _ cap lev rfl rfl rfl hs hall hne
  have hsp : shiftedPositionsOf ⟨true, true, true, rows⟩ cap lev =
      shift1 ((rows.map (fun r => r.forecast.getD 0)).map (fun f => f / 10 * lev)) := by
    simp [shiftedPositionsOf, hrun, mkOutput]
  have hpos : positionsOf ⟨true, true, true, rows⟩ cap lev =
      (rows.map (fun r => r.forecast.getD 0)).map (fun f => f / 10 * lev) := by
    simp [positionsOf, hrun, mkOutput]
  have hposlen : ((rows.map (fun r => r.forecast.getD 0)).map
      (fun f => f / 10 * lev)).length = rows.length := by simp
  refine ⟨?_, ?_, ?_⟩
  · intro j hj
    have hsr : strategyReturnsOf ⟨true, true, true, rows⟩ cap lev =
        List.zipWith (fun a b => a * b)
          (pctChange (rows.map (fun r => r.close)))
          (shift1 ((rows.map (fun r => r.forecast.getD 0)).map
            (fun f => f / 10 * lev))) := by
      simp [strategyReturnsOf, hrun, mkOutput]
    rcases Nat.lt_or_ge i rows.length with hi | hi
    · set v : Row := { rows.getD i ⟨0, none, 0⟩ with forecast := some b } with hv
      have hlen2 : (perturbRow rows i b).length = rows.length := by
        simp [perturbRow]
      have hdates : (perturbRow rows i b).map (fun r => r.date) =
          rows.map (fun r => r.date) := by
        show ((rows.set i v).map (fun r => r.date)) = _
        rw [List.map_set]
        have : v.date = (rows.map (fun r => r.date)).getD i 0 := by
          rw [getD_map_general (fun r => r.date) rows i ⟨0, none, 0⟩ 0 hi]
        rw [this, set_getD_self_general _ _ _ (by simpa using hi)]
      have hcloses : (perturbRow rows i b).map (fun r => r.close) =
          rows.map (fun r => r.close) := by
        show ((rows.set i v).map (fun r => r.close)) = _
        rw [List.map_set]
        have : v.close = (rows.map (fun r => r.close)).getD i 0 := by
          rw [getD_map_general (fun r => r.close) rows i ⟨0, none, 0⟩ 0 hi]
        rw [this, set_getD_self_general _ _ _ (by simpa using hi)]
      have hfcs : (perturbRow rows i b).map (fun r => r.forecast.getD 0) =
          (rows.map (fun r => r.forecast.getD 0)).set i b := by
        show ((rows.set i v).map (fun r => r.forecast.getD 0)) = _
        rw [List.map_set]
        rfl
      have hs2 : (perturbRow rows i b).Sorted (fun a b' => a.date ≤ b'.date) := by
        have h1 : (rows.map (fun r => r.date)).Pairwise (· ≤ ·) :=
          List.pairwise_map.mpr hs
        rw [← hdates] at h1
        exact List.pairwise_map.mp h1
      have hall2 : ∀ r ∈ perturbRow rows i b, r.forecast.isSome = true := by
        intro r hr
        rcases List.mem_or_eq_of_mem_set hr with hmem | hveq
        · exact hall r hmem
        · rw [hveq]
          rfl
      have hne2 : perturbRow rows i b ≠ [] := by
        intro hnil
        rw [hnil] at hlen2
        exact hne (List.eq_nil_of_length_eq_zero hlen2.symm)
      have hrun2 : run_backtest ⟨true, true, true, perturbRow rows i b⟩ cap lev =
          .ok (mkOutput (perturbRow rows i b) cap lev) :=
        run_backtest_ok_all _ cap lev rfl rfl rfl hs2 hall2 hne2
      have hsr2 : strategyReturnsOf ⟨true, true, true, perturbRow rows i b⟩ cap lev =
          List.zipWith (fun a b => a * b)
            (pctChange (rows.map (fun r => r.close)))
            (shift1 (((rows.map (fun r => r.forecast.getD 0)).set i b).map
              (fun f => f / 10 * lev))) := by
        simp [strategyReturnsOf, hrun2, mkOutput, hcloses, hfcs]
      rw [hsr, hsr2]
      rw [List.map_set]
      rcases Nat.lt_or_ge j rows.length with hjn | hjn
      · have har_len : (pctChange (rows.map (fun r => r.close))).length = rows.length := by
          simp [length_pctChange]
        have hsp_len : (shift1 ((rows.map (fun r => r.forecast.getD 0)).map
            (fun f => f / 10 * lev))).length = rows.length := by
          simp [length_shift1]
        have hsp2_len : (shift1 (((rows.map (fun r => r.forecast.getD 0)).map
            (fun f => f / 10 * lev)).set i (b / 10 * lev))).length = rows.length := by
          simp [length_shift1]
        rw [getD_zipWith_mul _ _ j (by rw [har_len]; exact hjn) (by rw [hsp_len]; exact hjn)]
        rw [getD_zipWith_mul _ _ j (by rw [har_len]; exact hjn) (by rw [hsp2_len]; exact hjn)]
        congr 1
        cases j with
        | zero =>
          rw [shift1_getD_zero_of_ne_nil _ (by
            intro hnil
            rw [hnil] at hposlen
            exact hne (List.eq_nil_of_length_eq_zero hposlen.symm))]
          rw [shift1_getD_zero_of_ne_nil _ (by
            intro hnil
            have : (((rows.map (fun r => r.forecast.getD 0)).map
                (fun f => f / 10 * lev)).set i (b / 10 * lev)).length = 0 := by
              rw [hnil]
              rfl
            simp [hposlen] at this
            exact hne this)]
        | succ m =>
          have hm : m ≠ i := fun hmi => hj (by rw [hmi])
          have hmlt : m + 1 < ((rows.map (fun r => r.forecast.getD 0)).map
              (fun f => f / 10 * lev)).length := by rw [hposlen]; exact hjn
          rw [shift1_getD_succ _ m hmlt]
          rw [shift1_getD_succ _ m (by simpa using hmlt)]
          rw [getD_set_ne _ _ _ _ hm]
      · have h1 : (List.zipWith (fun a b => a * b)
            (pctChange (rows.map (fun r => r.close)))
            (shift1 ((rows.map (fun r => r.forecast.getD 0)).map
              (fun f => f / 10 * lev)))).length ≤ j := by
          simp [length_pctChange, length_shift1]
          omega
        have h2 : (List.zipWith (fun a b => a * b)
            (pctChange (rows.map (fun r => r.close)))
            (shift1 (((rows.map (fun r => r.forecast.getD 0)).map
              (fun f => f / 10 * lev)).set i (b / 10 * lev)))).length ≤ j := by
          simp [length_pctChange, length_shift1]
          omega
        rw [getD_eq_zero_of_le _ _ h1, getD_eq_zero_of_le _ _ h2]
    · have : perturbRow rows i b = rows := List.set_eq_of_length_le (by omega)
      rw [this]
  · rw [hsp]
    exact shift1_getD_zero_of_ne_nil _ (by
      intro hnil
      rw [hnil] at hposlen
      exact hne (List.eq_nil_of_length_eq_zero hposlen.symm))
  · intro k hk0 hkn
    rw [hsp, hpos]
    cases k with
    | zero => exact absurd hk0 (by omega)
    | succ m =>
      rw [shift1_getD_succ _ m (by rw [hposlen]; exact hkn)]
      rfl

/-- C2 witness: perturbing forecast[1] from 20 to -30 leaves
strategy_return[1] unchanged, and shifted_position[0] = 0. -/
theorem c2_no_lookahead_witness :
    (strategyReturnsOf ⟨true, true, true, rowsPair⟩ 1000 1).getD 1 0 =
      (strategyReturnsOf ⟨true, true, true, perturbRow rowsPair 1 (-30)⟩ 1000 1).getD 1 0 ∧
    (shiftedPositionsOf ⟨true, true, true, rowsPair⟩ 1000 1).getD 0 0 = 0 := by
  obtain ⟨h1, h2, -⟩ := c2_no_lookahead rowsPair 1000 1 (-30) 1
    (by simp [rowsPair, List.sorted_cons])
    (by simp [rowsPair])
    (by simp [rowsPair])
  exact ⟨h1 1 (by omega), h2⟩

theorem getD_eq_default_of_le {α : Type} (l : List α) (n : ℕ) (d : α)
    (h : l.length ≤ n) : l.getD n d = d := by
  induction l generalizing n with
  | nil => simp
  | cons x xs ih =>
    cases n with
    | zero => simp at h
    | succ m => simpa using ih m (by simpa using h)

/-- Invariant of the scan loop: while a trade is open and every
remaining sign is non-zero, the pnl_abs of the trades it will emit
(including the final forced close at the last equity value) telescopes
to last equity minus the current trade's entry equity. -/
theorem segLoop_pnl_abs_sum (signs : List Int) (equity dates : List ℚ) (n : ℕ)
    (idxs : List ℕ) (st : SegState)
    (ht : st.trade_type ≠ 0)
    (hsig : ∀ i ∈ idxs, signs.getD i 0 ≠ 0) :
    ((segLoop signs equity dates n idxs st).map (fun t => t.pnl_abs)).sum =
      equity.getD (n - 1) 0 - st.trade_start_equity := by
  induction idxs generalizing st with
  | nil =>
    simp [segLoop, ht]
  | cons i rest ih =>
    have hi : signs.getD i 0 ≠ 0 := hsig i (by simp)
    by_cases heq : signs.getD i 0 = st.trade_type
    · show (List.map _ (if signs.getD i 0 ≠ st.trade_type then _ else
        segLoop signs equity dates n rest st)).sum = _
      rw [if_neg (fun h => h heq)]
      exact ih st ht (fun k hk => hsig k (by simp [hk]))
    · show (List.map _ (if signs.getD i 0 ≠ st.trade_type then _ else _)).sum = _
      rw [if_pos heq]
      show (List.map _ (if signs.getD i 0 ≠ 0 then _ else _)).sum = _
      rw [if_pos hi]
      simp only [List.map_cons, List.sum_cons]
      rw [ih { trade_type := signs.getD i 0, trade_start_idx := i,
               start_date := dates.getD i 0,
               trade_start_equity := equity.getD i 0 } hi
            (fun k hk => hsig k (by simp [hk]))]
      ring

/-- With a first non-zero sign at i0 and no zero sign afterwards, the
emitted trades' pnl_abs values sum to last equity minus the first
trade's equity basis. -/
theorem segmentTrades_pnl_abs_sum (signs : List Int) (equity dates : List ℚ)
    (cap : ℚ) (n : ℕ) (i0 : ℕ)
    (hfind : signs.findIdx? (fun s => s ≠ 0) = some i0)
    (hi0 : signs.getD i0 0 ≠ 0)
    (hnz : ∀ k, i0 + 1 ≤ k → k < n → signs.getD k 0 ≠ 0) :
    ((segmentTrades signs equity dates cap n).map (fun t => t.pnl_abs)).sum =
      equity.getD (n - 1) 0 - (if i0 = 0 then cap else equity.getD (i0 - 1) 0) := by
  unfold segmentTrades
  rw [hfind]
  simp only [Option.getD_some]
  rw [if_neg hi0]
  refine segLoop_pnl_abs_sum signs equity dates n _ _ hi0 ?_
  intro i hi
  rw [List.mem_range'] at hi
  obtain ⟨j, hj, rfl⟩ := hi
  exact hnz _ (by omega) (by omega)

/-- C6: reconciliation law. On sorted rows with defined forecasts whose
sign is non-zero from the first invested index i0 through the end (no
Flat gaps), the sum of pnl_abs over the emitted trades equals
strategy_equity[last] - strategy_equity[i0]; and strategy_equity[i0]
coincides with the first trade's basis (initial capital when i0 = 0,
strategy_equity[i0-1] otherwise), since no strategy return accrues
before the first lagged position. -/
theorem c6_reconciliation (rows : List Row) (cap lev : ℚ)
    (hs : rows.Sorted (fun a b => a.date ≤ b.date))
    (hall : ∀ r ∈ rows, r.forecast.isSome = true)
    (hinv : (signsOf rows).getD (firstInvestedIdx rows) 0 ≠ 0)
    (hnogap : ∀ k, k < rows.length → firstInvestedIdx rows ≤ k →
      (signsOf rows).getD k 0 ≠ 0) :
    ((tradesOf ⟨true, true, true, rows⟩ cap lev).map (fun t => t.pnl_abs)).sum =
      (strategyEquityOf ⟨true, true, true, rows⟩ cap lev).getD (rows.length - 1) 0 -
      (strategyEquityOf ⟨true, true, true, rows⟩ cap lev).getD (firstInvestedIdx rows) 0 ∧
    (strategyEquityOf ⟨true, true, true, rows⟩ cap lev).getD (firstInvestedIdx rows) 0 =
      (if firstInvestedIdx rows = 0 then cap
       else (strategyEquityOf ⟨true, true, true, rows⟩ cap lev).getD
         (firstInvestedIdx rows - 1) 0) := by
  have hsigndef : signsOf rows =
      (rows.map (fun r => r.forecast.getD 0)).map sgn := rfl
  have hsignlen : (signsOf rows).length = rows.length := by
    rw [hsigndef]
    simp
  have hi0lt : firstInvestedIdx rows < rows.length := by
    by_contra hge
    exact hinv (getD_eq_default_of_le _ _ _ (by omega))
  have hne : rows ≠ [] := by
    intro h
    rw [h] at hi0lt
    exact absurd hi0lt (by simp)
  have hrun : run_backtest ⟨true, true, true, rows⟩ cap lev =
      .ok (mkOutput rows cap lev) :=
    run_backtest_ok_all _ cap lev rfl rfl rfl hs hall hne
  have hfind : ((rows.map (fun r => r.forecast.getD 0)).map sgn).findIdx?
      (fun s => s ≠ 0) = some (firstInvestedIdx rows) := by
    have := findIdx?_of_getD_ne ((rows.map (fun r => r.forecast.getD 0)).map sgn)
      (by rw [← hsigndef]; exact hinv)
    rw [this]
    rfl
  have heqty : strategyEquityOf ⟨true, true, true, rows⟩ cap lev =
      cumEquity cap (List.zipWith (fun a b => a * b)
        (pctChange (rows.map (fun r => r.close)))
        (shift1 ((rows.map (fun r => r.forecast.getD 0)).map
          (fun f => f / 10 * lev)))) := by
    simp [strategyEquityOf, hrun, mkOutput]
  have htr : tradesOf ⟨true, true, true, rows⟩ cap lev =
      segmentTrades ((rows.map (fun r => r.forecast.getD 0)).map sgn)
        (cumEquity cap (List.zipWith (fun a b => a * b)
          (pctChange (rows.map (fun r => r.close)))
          (shift1 ((rows.map (fun r => r.forecast.getD 0)).map
            (fun f => f / 10 * lev)))))
        (rows.map (fun r => r.date)) cap rows.length := by
    simp [tradesOf, hrun, mkOutput]
  have hsrlen : (List.zipWith (fun a b => a * b)
      (pctChange (rows.map (fun r => r.close)))
      (shift1 ((rows.map (fun r => r.forecast.getD 0)).map
        (fun f => f / 10 * lev)))).length = rows.length := by
    simp [length_pctChange, length_shift1]
  have hposlen : ((rows.map (fun r => r.forecast.getD 0)).map
      (fun f => f / 10 * lev)).length = rows.length := by simp
  have hposne : ((rows.map (fun r => r.forecast.getD 0)).map
      (fun f => f / 10 * lev)) ≠ [] := by
    intro h
    rw [h] at hposlen
    exact hne (List.eq_nil_of_length_eq_zero hposlen.symm)
  have hbasis : (strategyEquityOf ⟨true, true, true, rows⟩ cap lev).getD
      (firstInvestedIdx rows) 0 =
      (if firstInvestedIdx rows = 0 then cap
       else (strategyEquityOf ⟨true, true, true, rows⟩ cap lev).getD
         (firstInvestedIdx rows - 1) 0) := by
    rw [heqty]
    cases hi0 : firstInvestedIdx rows with
    | zero =>
      have h0 : 0 < rows.length := by omega
      rw [if_pos rfl]
      have hsr0 : (List.zipWith (fun a b => a * b)
          (pctChange (rows.map (fun r => r.close)))
          (shift1 ((rows.map (fun r => r.forecast.getD 0)).map
            (fun f => f / 10 * lev)))).getD 0 0 = 0 := by
        rw [getD_zipWith_mul _ _ 0
          (by rw [length_pctChange]; simpa using h0)
          (by rw [length_shift1, hposlen]; exact h0)]
        rw [shift1_getD_zero_of_ne_nil _ hposne]
        ring
      rcases hsr : (List.zipWith (fun a b => a * b)
          (pctChange (rows.map (fun r => r.close)))
          (shift1 ((rows.map (fun r => r.forecast.getD 0)).map
            (fun f => f / 10 * lev)))) with - | ⟨r, rs⟩
      · rw [hsr] at hsrlen
        exact absurd (List.eq_nil_of_length_eq_zero hsrlen.symm) hne
      · rw [hsr] at hsr0
        simp only [List.getD_cons_zero] at hsr0
        rw [cumEquity_getD_zero, hsr0]
        ring
    | succ m =>
      have hlen1 : m + 1 < rows.length := by omega
      rw [if_neg (Nat.succ_ne_zero m)]
      have hmlt : m + 1 < (List.zipWith (fun a b => a * b)
          (pctChange (rows.map (fun r => r.close)))
          (shift1 ((rows.map (fun r => r.forecast.getD 0)).map
            (fun f => f / 10 * lev)))).length := by
        rw [hsrlen]
        exact hlen1
      rw [cumEquity_getD_succ cap _ m hmlt]
      have hfm : (rows.map (fun r => r.forecast.getD 0)).getD m 0 = 0 := by
        have hsgnm : ((rows.map (fun r => r.forecast.getD 0)).map sgn).getD m 0 = 0 :=
          signs_before_firstIdx _ (firstInvestedIdx rows) m hfind (by omega)
        rw [getD_map_sgn _ m (by simp only [List.length_map]; omega)] at hsgnm
        exact (sgn_eq_zero_iff _).mp hsgnm
      have hsrm : (List.zipWith (fun a b => a * b)
          (pctChange (rows.map (fun r => r.close)))
          (shift1 ((rows.map (fun r => r.forecast.getD 0)).map
            (fun f => f / 10 * lev)))).getD (m + 1) 0 = 0 := by
        rw [getD_zipWith_mul _ _ (m + 1)
          (by simp only [length_pctChange, List.length_map]; omega)
          (by simp only [length_shift1, List.length_map]; omega)]
        rw [shift1_getD_succ _ m (by simp only [List.length_map]; omega)]
        rw [getD_map _ _ m (by simp only [List.length_map]; omega)]
        rw [hfm]
        ring
      rw [hsrm]
      simp
  refine ⟨?_, hbasis⟩
  rw [htr]
  rw [segmentTrades_pnl_abs_sum _ _ _ cap rows.length (firstInvestedIdx rows) hfind
    (by rw [← hsigndef]; exact hinv)
    (fun k hk1 hk2 => by
      have := hnogap k hk2 (by omega)
      rw [hsigndef] at this
      exact this)]
  rw [← heqty, hbasis]

/-- C6 witness: signs 1, -1 (invested from index 0, no Flat gap); the
two emitted trades' pnl_abs sum to strategy_equity[1] minus
strategy_equity at the first invested index. -/
theorem c6_reconciliation_witness :
    ((tradesOf ⟨true, true, true, rowsNoGap⟩ 1000 1).map
      (fun t => t.pnl_abs)).sum =
      (strategyEquityOf ⟨true, true, true, rowsNoGap⟩ 1000 1).getD
        (rowsNoGap.length - 1) 0 -
      (strategyEquityOf ⟨true, true, true, rowsNoGap⟩ 1000 1).getD
        (firstInvestedIdx rowsNoGap) 0 :=
  (c6_reconciliation rowsNoGap 1000 1
    (by simp [rowsNoGap, List.sorted_cons])
    (by simp [rowsNoGap])
    (by norm_num [signsOf, forecastsOf, firstInvestedIdx, sgn, rowsNoGap,
      List.findIdx?])
    (by
      intro k hk _
      have hk2 : k < 2 := by simpa [rowsNoGap] using hk
      interval_cases k <;>
        norm_num [signsOf, forecastsOf, sgn, rowsNoGap])).1
